import Mathlib

/- Shallow embedding of the audio transport engine of narrative-director-rs.
   Each definition is translated from the Rust source under src/; the file
   then proves or refutes the frozen specification claims about it. -/

/- ### Transport state machine: src/src/media/io.rs, `MediaStates` and `Media` -/

/-- The five transport states of `MediaStates` in src/src/media/io.rs. -/
inductive MediaStates where
  | Playing
  | Paused
  | Recording
  | StoppedPlaying
  | StoppedRecording
  deriving DecidableEq, Repr

/-- Messages a `Media` method sends to the media-ui-modifier thread
(`SenderMessages` in src/src/media/io.rs); payloads are reduced to the data
the claims mention (device handles and paths are external resources). -/
inductive SenderMessages where
  | load (length : Nat)
  | clear
  | playMsg
  | recordMsg
  | pauseAt (pos : Nat)
  | stopIfPaused
  deriving DecidableEq, Repr

/-- `Media::pause_at` (src/src/media/io.rs lines 401-418): when the current
state is `Recording` it returns immediately, touching nothing; otherwise it
unconditionally sets the state to `Paused` and sends `PauseAt(pos)`.
The result is the new state paired with the messages sent. -/
def Media.pause_at (state : MediaStates) (current_pos_secs : Nat) :
    MediaStates × List SenderMessages :=
  if state = MediaStates.Recording then
    (state, [])
  else
    (MediaStates.Paused, [SenderMessages.pauseAt current_pos_secs])

/-- `Media::stop` (src/src/media/io.rs lines 435-460): `Playing` becomes
`StoppedPlaying`, `Recording` becomes `StoppedRecording`, `Paused` becomes
`StoppedPlaying` and additionally sends `StopIfPaused`; in the two stopped
states nothing happens and nothing is sent. -/
def Media.stop (state : MediaStates) : MediaStates × List SenderMessages :=
  if state = MediaStates.Playing then
    (MediaStates.StoppedPlaying, [])
  else if state = MediaStates.Recording then
    (MediaStates.StoppedRecording, [])
  else if state = MediaStates.Paused then
    (MediaStates.StoppedPlaying, [SenderMessages.stopIfPaused])
  else
    (state, [])

/-- A transport state is idle when it is neither playing, paused nor
recording, i.e. one of the two stopped states. -/
def MediaStates.isIdle (state : MediaStates) : Prop :=
  state = MediaStates.StoppedPlaying ∨ state = MediaStates.StoppedRecording

instance (state : MediaStates) : Decidable state.isIdle := by
  unfold MediaStates.isIdle
  infer_instance

/- ### Time formatting: `to_hh_mm_ss_str` in src/src/media/io.rs -/

/-- Two-digit zero padding, the Rust format specifier used at
src/src/media/io.rs line 41. -/
def pad2 (n : Nat) : String :=
  if n < 10 then "0" ++ toString n else toString n

/-- `to_hh_mm_ss_str` (src/src/media/io.rs lines 36-42), computing the
seconds, minutes and hours fields exactly as the source does. -/
def to_hh_mm_ss_str (secs : Nat) : String :=
  let seconds := secs % 60
  let minutes := (seconds / 60) % 60
  let hours := minutes / 60
  pad2 hours ++ ":" ++ pad2 minutes ++ ":" ++ pad2 seconds

/- ### Chunk navigation: `AudioIO` in src/src/audio/audio_processor.rs and
src/src/media_io/audio_processor.rs (identical index logic) -/

/-- The chunk-navigation fields of the Rust `AudioIO` struct; the recorder,
player and cached duration are external resources not touched by the index
logic the claims are about. -/
structure AudioIOState where
  current_chunk_index : Nat
  total_num_chunks : Nat
  deriving DecidableEq, Repr

/-- `FileStatus` from the media-processor prelude. -/
inductive FileStatus where
  | Exists
  | New
  deriving DecidableEq, Repr

/-- `AudioIO::go_to` (src/src/audio/audio_processor.rs lines 182-202 and
src/src/media_io/audio_processor.rs lines 112-130): errors when `idx` is
strictly greater than `total_num_chunks`, otherwise sets the current chunk
index to `idx` and reports whether `part<idx>.wav` exists. `file_on_disk`
models the file-system query `input_path.exists()`. -/
def AudioIOState.go_to (st : AudioIOState) (file_on_disk : Nat → Bool)
    (idx : Nat) : Except String (AudioIOState × FileStatus) :=
  if idx > st.total_num_chunks then
    Except.error ("AudioIO go_to error: index " ++ toString idx ++
      " greater than available chunks.")
  else
    let st2 := { st with current_chunk_index := idx }
    if file_on_disk idx then Except.ok (st2, FileStatus.Exists)
    else Except.ok (st2, FileStatus.New)

/-- `AudioIO::next` (src/src/audio/audio_processor.rs lines 138-158 and
src/src/media_io/audio_processor.rs lines 72-90): errors when
`current_chunk_index + 1` would reach or exceed `total_num_chunks`,
otherwise advances the index by one. -/
def AudioIOState.next (st : AudioIOState) (file_on_disk : Nat → Bool) :
    Except String (AudioIOState × FileStatus) :=
  if st.current_chunk_index + 1 ≥ st.total_num_chunks then
    Except.error ("AudioIO next error: current chunk " ++
      toString st.current_chunk_index ++ " exceeds total of " ++
      toString st.total_num_chunks)
  else
    let st2 := { st with current_chunk_index := st.current_chunk_index + 1 }
    if file_on_disk st2.current_chunk_index then Except.ok (st2, FileStatus.Exists)
    else Except.ok (st2, FileStatus.New)


/- ### Playback setup: `output_stream_from` in src/src/media/io.rs -/

/-- `hound::SampleFormat`. -/
inductive WavSampleFormat where
  | int
  | float
  deriving DecidableEq, Repr

/-- The WAV metadata `output_stream_from` reads from the opened file:
`WavReader::duration()` (total frames, a `u32`) and the `WavSpec` fields it
uses. -/
structure WavClip where
  num_samples : Nat
  sample_rate : Nat
  channels : Nat
  bits_per_sample : Nat
  sample_format : WavSampleFormat
  deriving DecidableEq, Repr

/-- Observable actions `output_stream_from` performs on the decoder and the
output device. -/
inductive PlayAction where
  | seekTo (n : Nat)
  | buildStream
  | playStream
  deriving DecidableEq, Repr

/-- Failure cases of `output_stream_from`: the `bail!` for a starting
position past the end of the file, and the `bail!` for an unsupported
sample format. -/
inductive PlayError where
  | startBeyondEnd
  | unsupportedFormat
  deriving DecidableEq, Repr

/-- `samples_to_skip` as computed at src/src/media/io.rs line 723:
`(starting_pos_secs as u32) * sample_rate` — the `usize` position is
truncated to `u32` and the product is `u32` arithmetic, hence the
`% 2 ^ 32` reductions. -/
def samplesToSkip (starting_pos_secs : Nat) (clip : WavClip) : Nat :=
  ((starting_pos_secs % 2 ^ 32) * clip.sample_rate) % 2 ^ 32

/-- `output_stream_from` (src/src/media/io.rs lines 712-774): bails with the
start-beyond-end error before doing anything when `samples_to_skip`
exceeds the frame count; otherwise seeks the decoder to `samples_to_skip`,
builds and plays an output stream for the 32-bit-float and 16-bit-int
formats, and bails on any other format after the seek. The function itself
never touches the transport state. Returns the performed actions and the
result (the float-valued duration computation is not needed by any
claim). -/
def output_stream_from (starting_pos_secs : Nat) (clip : WavClip) :
    List PlayAction × Except PlayError Unit :=
  let skip := samplesToSkip starting_pos_secs clip
  if skip > clip.num_samples then
    ([], Except.error PlayError.startBeyondEnd)
  else
    match clip.bits_per_sample, clip.sample_format with
    | 32, WavSampleFormat.float =>
        ([PlayAction.seekTo skip, PlayAction.buildStream, PlayAction.playStream],
          Except.ok ())
    | 16, WavSampleFormat.int =>
        ([PlayAction.seekTo skip, PlayAction.buildStream, PlayAction.playStream],
          Except.ok ())
    | _, _ => ([PlayAction.seekTo skip], Except.error PlayError.unsupportedFormat)

/- ### Stream config resolution: `AudioInput::config` in src/src/media/io.rs
and `device_config_from_sample_and_channels` in src/src/audio/recorder.rs -/

/-- One entry of `supported_input_configs()`: a channel count and an
advertised sample-rate range (cpal `SupportedStreamConfigRange`). -/
structure ConfigRange where
  channels : Nat
  min_sample_rate : Nat
  max_sample_rate : Nat
  deriving DecidableEq, Repr

/-- The negotiated stream configuration (channel count and sample rate). -/
structure StreamCfg where
  channels : Nat
  sample_rate : Nat
  deriving DecidableEq, Repr

/-- cpal `SupportedStreamConfigRange::with_sample_rate`: asserts the given
rate lies within the range and fixes it; the assertion failure (a panic) is
modeled as `none`. -/
def with_sample_rate (c : ConfigRange) (rate : Nat) : Option StreamCfg :=
  if c.min_sample_rate ≤ rate ∧ rate ≤ c.max_sample_rate then
    some { channels := c.channels, sample_rate := rate }
  else none

/-- `AudioInput::config` (src/src/media/io.rs lines 655-670): find the first
supported input config whose channel count equals the desired one and whose
range contains the desired sample rate, then fix that rate. The `expect` on
a failed find (a panic) is modeled as `none`. -/
def AudioInput.config (supported_configs : List ConfigRange)
    (sample_rate : Nat) (channels : Nat) : Option StreamCfg :=
  (supported_configs.find? (fun c =>
      c.channels == channels && decide (sample_rate ≥ c.min_sample_rate) &&
        decide (sample_rate ≤ c.max_sample_rate))).bind
    (fun c => with_sample_rate c sample_rate)

/-- `device_config_from_sample_and_channels` (src/src/audio/recorder.rs
lines 44-55): find the first supported input config whose channel count
equals the desired one — the sample-rate range is not part of the search —
then fix the desired rate via `with_sample_rate`. -/
def device_config_from_sample_and_channels (supported_configs : List ConfigRange)
    (sample_rate : Nat) (num_channels : Nat) : Option StreamCfg :=
  (supported_configs.find? (fun c => c.channels == num_channels)).bind
    (fun c => with_sample_rate c sample_rate)

/- ### Playback output callback: the `output_data_fn` closures in
`output_stream_from` (src/src/media/io.rs lines 736-768) -/

/-- Rust `Result::unwrap_or`: the decoded sample, or the silence value on a
decode error. -/
def unwrap_or {α : Type} (zero : α) : Except String α → α
  | Except.ok v => v
  | Except.error _ => zero

/-- One invocation of the playback output callback: the output buffer is
zipped with the decoder's remaining samples (`data.iter_mut().zip(...)`),
each paired slot receives `unwrap_or` of the decoded item, and — because
`zip` stops at the shorter side — slots beyond the decoder's end are left
holding their previous contents. `zero` is `0` for the int path and `0.0`
for the float path. -/
def fillBuffer {α : Type} (zero : α) :
    List α → List (Except String α) → List α
  | buf, [] => buf
  | [], _ => []
  | _ :: buf, s :: rest => unwrap_or zero s :: fillBuffer zero buf rest


/-- A demonstration device advertisement: a mono entry first, then a stereo
entry whose range contains 44100 Hz. -/
def demoPre : List ConfigRange :=
  [{ channels := 1, min_sample_rate := 8000, max_sample_rate := 96000 }]

/-- The stereo entry of the demonstration device. -/
def demoMatch : ConfigRange :=
  { channels := 2, min_sample_rate := 44100, max_sample_rate := 48000 }

/- ### Supervising loops of `spawn_media_ui_modifier` (src/src/media/io.rs) -/

/-- The playback supervising loop (src/src/media/io.rs lines 181-197):
while the state reads `Playing` and `current_pos_secs < total_secs`, sleep
one second, increment `current_pos_secs`, publish it as a progress tick,
and switch the state to `StoppedPlaying` when the new position reaches the
total. Returns the emitted tick positions, the final position and the final
state; this models the run in which no other thread writes the state. -/
def playLoop (state : MediaStates) (current_pos_secs total_secs : Nat) :
    List Nat × Nat × MediaStates :=
  if h : state = MediaStates.Playing ∧ current_pos_secs < total_secs then
    let c := current_pos_secs + 1
    let state2 := if c = total_secs then MediaStates.StoppedPlaying else state
    let rest := playLoop state2 c total_secs
    (c :: rest.1, rest.2)
  else
    ([], current_pos_secs, state)
termination_by total_secs - current_pos_secs
decreasing_by omega

/-- Events published by the recording branch: the per-second widget update
(`set_current`/`set_total`/`update_recording`, which displays both the
current position and the total) and the terminal status-bar notification
(`notify_recording_complete`). -/
inductive RecEvent where
  | tick (current_secs total_secs : Nat)
  | complete (filepath : String)
  deriving DecidableEq, Repr

/-- The recording supervising loop (src/src/media/io.rs lines 245-257),
starting from `current_pos_secs`: each of the `remaining` iterations for
which the state is still observed as `Recording` increments the position
and publishes it as both the current position and the total duration. -/
def recordLoop (current_pos_secs : Nat) : Nat → List RecEvent
  | 0 => []
  | remaining + 1 =>
      RecEvent.tick (current_pos_secs + 1) (current_pos_secs + 1) ::
        recordLoop (current_pos_secs + 1) remaining

/-- The recording branch after `input_stream_from` succeeds
(src/src/media/io.rs lines 245-281): the loop runs from position 0 for the
`n` one-second iterations until Stop is observed, and after the loop exits
a single recording-complete notification naming the recorded file's path is
emitted. -/
def recordSession (n : Nat) (filepath : String) : List RecEvent :=
  recordLoop 0 n ++ [RecEvent.complete filepath]

/-- Whether a recording event is the terminal notification. -/
def RecEvent.isComplete : RecEvent → Bool
  | RecEvent.complete _ => true
  | RecEvent.tick _ _ => false

/- ### Supported sample rates: `AudioInput::sample_rates` in
src/src/media/io.rs and `get_sample_rates_for_device` in
src/src/audio/recorder.rs (identical logic) -/

/-- The fixed candidate set `SUPPORTED_SAMPLE_RATES` (src/src/media/io.rs
line 585, src/src/audio/recorder.rs line 167). -/
def SUPPORTED_SAMPLE_RATES : List Nat :=
  [16000, 32000, 44100, 48000, 88200, 96000]

/-- The candidates one advertised config contributes: every member of the
fixed set lying between the config's min and max sample rate, in candidate
order (the inner `for` loop). -/
def ratesOf (config : ConfigRange) : List Nat :=
  SUPPORTED_SAMPLE_RATES.filter (fun rate =>
    decide (rate ≥ config.min_sample_rate) &&
      decide (rate ≤ config.max_sample_rate))

/-- The push loop of `AudioInput::sample_rates` (src/src/media/io.rs lines
587-595): for each advertised config, append its in-range candidates. -/
def found_sample_rates (supported_configs : List ConfigRange) : List Nat :=
  supported_configs.foldl (fun acc config => acc ++ ratesOf config) []

/-- Rust `Vec::dedup`: remove consecutive repeated elements. -/
def dedup_consecutive : List Nat → List Nat
  | [] => []
  | [a] => [a]
  | a :: b :: rest =>
      if a = b then dedup_consecutive (b :: rest)
      else a :: dedup_consecutive (b :: rest)

/-- `AudioInput::sample_rates` (src/src/media/io.rs lines 575-601) /
`CpalAudioRecorder::get_sample_rates_for_device` (src/src/audio/recorder.rs
lines 160-183): collect the in-range candidates per config, then
`sort_unstable` and `dedup`. -/
def sample_rates (supported_configs : List ConfigRange) : List Nat :=
  dedup_consecutive
    ((found_sample_rates supported_configs).mergeSort
      (fun a b => decide (a ≤ b)))


/- ### Theorems for claims C2, C4, C9, C10 -/

/-- Claim C2, counterexample: issuing Pause while the transport is stopped
(idle) does not leave the state unchanged — `Media::pause_at` moves
`StoppedPlaying` to `Paused`. -/
theorem C2_pause_from_idle_changes_state :
    (Media.pause_at MediaStates.StoppedPlaying 0).1 = MediaStates.Paused ∧
    MediaStates.Paused ≠ MediaStates.StoppedPlaying := by
  constructor
  · rfl
  · decide

/-- Claim C2, amended: `Media::pause_at` leaves the transport state unchanged
exactly when the state is `Recording` or already `Paused`; from every other
state — `Playing` but also the stopped/idle states — it sets the state to
`Paused`; and it emits the `PauseAt` message exactly when the state is not
`Recording`. -/
theorem C2_pause_guard (state : MediaStates) (pos : Nat) :
    ((Media.pause_at state pos).1 = state ↔
      (state = MediaStates.Recording ∨ state = MediaStates.Paused)) ∧
    ((Media.pause_at state pos).1 = MediaStates.Paused ↔
      state ≠ MediaStates.Recording) ∧
    ((Media.pause_at state pos).2 = [SenderMessages.pauseAt pos] ↔
      state ≠ MediaStates.Recording) := by
  cases state <;> simp [Media.pause_at]

/-- Claim C4: calling `Media::stop` in an idle (stopped) state is a no-op —
the state is returned unchanged and no message is sent — and this
characterizes idleness; consequently Stop followed by Stop has the same
effect as a single Stop (the second Stop changes nothing and sends
nothing). -/
theorem C4_stop_idle_noop (state : MediaStates) :
    (Media.stop state = (state, []) ↔ state.isIdle) ∧
    Media.stop (Media.stop state).1 = ((Media.stop state).1, []) := by
  cases state <;> simp [Media.stop, MediaStates.isIdle]

/-- Claim C9: for every `secs`, `to_hh_mm_ss_str secs` renders the hours and
minutes fields as `00` — the whole string is `"00:00:"` followed by the
two-digit rendering of `secs % 60` — because minutes is computed as
`(secs % 60) / 60 % 60`, which is `0` for every input. -/
theorem C9_to_hh_mm_ss_str_shape (secs : Nat) :
    to_hh_mm_ss_str secs = "00:00:" ++ pad2 (secs % 60) := by
  simp only [to_hh_mm_ss_str]
  have hm : secs % 60 / 60 % 60 = 0 := by omega
  rw [hm]
  have hh : (0 : Nat) / 60 = 0 := by omega
  rw [hh]
  congr 1

/-- Claim C10: `go_to idx` errors exactly when `idx` is strictly greater
than `total_num_chunks`; in particular `idx = total_num_chunks` is accepted
and sets the current chunk index to `total_num_chunks` (one past the last
valid 0-based index), while `next` errors exactly when the step would reach
index `total_num_chunks` or beyond. -/
theorem C10_go_to_boundary (st : AudioIOState) (file_on_disk : Nat → Bool)
    (idx : Nat) :
    ((∃ e, AudioIOState.go_to st file_on_disk idx = Except.error e) ↔
      idx > st.total_num_chunks) ∧
    (AudioIOState.go_to st file_on_disk st.total_num_chunks =
      Except.ok ({ st with current_chunk_index := st.total_num_chunks },
        if file_on_disk st.total_num_chunks then FileStatus.Exists
        else FileStatus.New)) ∧
    ((∃ e, AudioIOState.next st file_on_disk = Except.error e) ↔
      st.current_chunk_index + 1 ≥ st.total_num_chunks) := by
  refine ⟨?_, ?_, ?_⟩
  · unfold AudioIOState.go_to
    split
    · simp
      omega
    · split <;> simp <;> omega
  · unfold AudioIOState.go_to
    split
    · omega
    · split <;> simp_all
  · unfold AudioIOState.next
    split
    · simp
      omega
    · simp only []
      split <;> simp <;> omega


/- ### Theorems for claims C1, C5, C8 -/

/-- Claim C1, counterexample: with a clip of 132300 frames at 44100 Hz and
starting position 4294967296 seconds, `start_secs * sample_rate` far
exceeds the frame count, yet `output_stream_from` does not fail: the `u32`
truncation of the position makes `samples_to_skip` zero, so the seek is
issued and the stream is built and played. -/
theorem C1_truncation_counterexample :
    output_stream_from 4294967296
        { num_samples := 132300, sample_rate := 44100, channels := 1,
          bits_per_sample := 16, sample_format := WavSampleFormat.int } =
      ([PlayAction.seekTo 0, PlayAction.buildStream, PlayAction.playStream],
        Except.ok ()) ∧
    4294967296 * 44100 > 132300 := by
  constructor
  · rfl
  · norm_num

/-- Claim C1, amended: `output_stream_from` computes
`samples_to_skip = ((start_secs mod 2^32) * sample_rate) mod 2^32` (u32
arithmetic); it fails with the start-beyond-end error exactly when that
value exceeds the clip's frame count, in which case it performs no action
at all (no seek, no stream); otherwise the seek to `samples_to_skip` is
issued and setup proceeds. For `start_secs * sample_rate < 2^32` this
coincides with the original claim. -/
theorem C1_start_beyond_end_guard (starting_pos_secs : Nat) (clip : WavClip) :
    ((output_stream_from starting_pos_secs clip).2 =
        Except.error PlayError.startBeyondEnd ↔
      samplesToSkip starting_pos_secs clip > clip.num_samples) ∧
    ((output_stream_from starting_pos_secs clip).1 = [] ↔
      samplesToSkip starting_pos_secs clip > clip.num_samples) ∧
    (PlayAction.seekTo (samplesToSkip starting_pos_secs clip) ∈
        (output_stream_from starting_pos_secs clip).1 ↔
      samplesToSkip starting_pos_secs clip ≤ clip.num_samples) := by
  by_cases h : samplesToSkip starting_pos_secs clip > clip.num_samples
  · simp only [output_stream_from, if_pos h]
    exact ⟨iff_of_true (by simp) h, iff_of_true (by simp) h,
      iff_of_false (by simp) (by omega)⟩
  · simp only [output_stream_from, if_neg h]
    have hle : samplesToSkip starting_pos_secs clip ≤ clip.num_samples := by
      omega
    split
    · exact ⟨iff_of_false (by simp) h, iff_of_false (by simp) h,
        iff_of_true (by simp) hle⟩
    · exact ⟨iff_of_false (by simp) h, iff_of_false (by simp) h,
        iff_of_true (by simp) hle⟩
    · exact ⟨iff_of_false (by simp) h, iff_of_false (by simp) h,
        iff_of_true (by simp) hle⟩

/-- Claim C5, counterexample: a device advertising
`[(2 ch, 8000-8000 Hz), (2 ch, 44100-48000 Hz)]` does include the desired
channel count 2 with 44100 Hz inside the second entry's range, yet
`device_config_from_sample_and_channels` returns no configuration: its
search matches on channel count alone, picks the first entry, and
`with_sample_rate`'s range assertion then fails (a panic in the source). -/
theorem C5_recorder_resolver_counterexample :
    device_config_from_sample_and_channels
        [{ channels := 2, min_sample_rate := 8000, max_sample_rate := 8000 },
         { channels := 2, min_sample_rate := 44100, max_sample_rate := 48000 }]
        44100 2 = none ∧
    ({ channels := 2, min_sample_rate := 44100, max_sample_rate := 48000 } :
        ConfigRange).channels = 2 ∧
    44100 ≥ (44100 : Nat) ∧ (44100 : Nat) ≤ 48000 := by
  refine ⟨rfl, rfl, le_refl _, by norm_num⟩

/-- Claim C5, amended: `AudioInput::config` in src/src/media/io.rs satisfies
the claim — when some advertised entry has the desired channel count and a
range containing the desired rate, the first such entry is selected and the
result carries exactly the desired channel count and sample rate.
`device_config_from_sample_and_channels` in src/src/audio/recorder.rs does
not: it matches on channel count alone and only afterwards asserts the rate
against the chosen entry's range, so it can panic where a later entry
matches both. -/
theorem C5_config_resolution_first_match (pre post : List ConfigRange)
    (c : ConfigRange) (rate ch : Nat)
    (hc : c.channels = ch ∧ c.min_sample_rate ≤ rate ∧ rate ≤ c.max_sample_rate)
    (hpre : ∀ d ∈ pre, ¬(d.channels = ch ∧ d.min_sample_rate ≤ rate ∧
      rate ≤ d.max_sample_rate)) :
    AudioInput.config (pre ++ c :: post) rate ch =
      some { channels := ch, sample_rate := rate } := by
  obtain ⟨hch, hmin, hmax⟩ := hc
  unfold AudioInput.config
  rw [List.find?_append]
  have hnone : pre.find? (fun d =>
      d.channels == ch && decide (rate ≥ d.min_sample_rate) &&
        decide (rate ≤ d.max_sample_rate)) = none := by
    rw [List.find?_eq_none]
    intro d hd
    have := hpre d hd
    simp only [Bool.and_eq_true, beq_iff_eq, decide_eq_true_eq]
    tauto
  rw [hnone]
  have hfind : (c :: post).find? (fun d =>
      d.channels == ch && decide (rate ≥ d.min_sample_rate) &&
        decide (rate ≤ d.max_sample_rate)) = some c := by
    rw [List.find?_cons_of_pos]
    simp only [Bool.and_eq_true, beq_iff_eq, decide_eq_true_eq]
    exact ⟨⟨hch, hmin⟩, hmax⟩
  rw [hfind]
  simp only [Option.none_or, Option.some_bind]
  unfold with_sample_rate
  rw [if_pos ⟨hmin, hmax⟩, hch]


/-- Claim C5, witness: the amended theorem applied to a concrete device
whose first entry has a different channel count and whose second entry
matches both the desired channel count and rate. -/
theorem C5_config_resolution_witness :
    ((∀ d ∈ demoPre, ¬(d.channels = 2 ∧ d.min_sample_rate ≤ 44100 ∧
        44100 ≤ d.max_sample_rate)) ∧
      demoMatch.channels = 2 ∧ demoMatch.min_sample_rate ≤ 44100 ∧
        44100 ≤ demoMatch.max_sample_rate) ∧
    AudioInput.config (demoPre ++ demoMatch :: []) 44100 2 =
      some { channels := 2, sample_rate := 44100 } :=
  ⟨⟨by decide, by decide⟩,
    C5_config_resolution_first_match demoPre [] demoMatch 44100 2
      (by decide) (by decide)⟩

/-- Claim C8, counterexample: when the decoder is exhausted (no samples
left), an output slot holding the stale value 7 is left at 7: `zip` pairs
nothing with it, so no silence is written, contradicting the claim that
exhaustion substitutes 0. -/
theorem C8_exhausted_slot_left_stale :
    fillBuffer (0 : Int) [7] [] = [7] ∧ ([7] : List Int) ≠ [(0 : Int)] := by
  constructor
  · rfl
  · decide

/-- Claim C8, amended: each output slot paired with a decoded item receives
the sample, or the silence value on a decode error (`unwrap_or`); once the
decoder is exhausted the remaining slots are left unmodified rather than
silenced. The callback is a total function of the buffer and the decoded
items (no failure path) and preserves the buffer length. -/
theorem C8_callback_fill (zero : Int) (buf : List Int)
    (samples : List (Except String Int)) :
    fillBuffer zero buf samples =
      List.zipWith (fun _b s => unwrap_or zero s) buf samples ++
        buf.drop samples.length ∧
    (fillBuffer zero buf samples).length = buf.length := by
  induction buf generalizing samples with
  | nil =>
    cases samples <;> simp [fillBuffer]
  | cons b buf ih =>
    cases samples with
    | nil => simp [fillBuffer]
    | cons s rest =>
      have h := ih rest
      simp only [fillBuffer, List.zipWith, List.length_cons, List.drop_succ_cons]
      constructor
      · rw [h.1]
        simp
      · simpa using h.2


/- ### Theorems for claims C3 and C7 -/

/-- Characterization of a full playback-loop run: starting `n > 0` seconds
before the total, the loop emits the tick positions `current+1 .. total`,
ends at the total, and leaves the state `StoppedPlaying`. -/
theorem playLoop_run (total_secs : Nat) :
    ∀ n current_pos_secs, current_pos_secs + n = total_secs → 0 < n →
      playLoop MediaStates.Playing current_pos_secs total_secs =
        (List.range' (current_pos_secs + 1) n, total_secs,
          MediaStates.StoppedPlaying) := by
  intro n
  induction n with
  | zero => omega
  | succ m ih =>
    intro c hct _
    rw [playLoop, dif_pos ⟨rfl, by omega⟩]
    simp only []
    by_cases hm : m = 0
    · subst hm
      have hc1 : c + 1 = total_secs := by omega
      rw [if_pos hc1]
      rw [playLoop, dif_neg (by simp)]
      simp [hc1, List.range']
    · have hc1 : c + 1 ≠ total_secs := by omega
      rw [if_neg hc1]
      rw [ih (c + 1) (by omega) (by omega)]
      rw [List.range'_succ]

/-- Claim C3: in a playback run starting strictly before the total
duration, every emitted elapsed position is at most the total duration, the
position `total_secs` is emitted exactly once as the last tick (no tick
follows it), and the loop ends with the automatic transition to
`StoppedPlaying` with the position equal to the total. -/
theorem C3_playback_progress (current_pos_secs total_secs : Nat)
    (h : current_pos_secs < total_secs) :
    playLoop MediaStates.Playing current_pos_secs total_secs =
      (List.range' (current_pos_secs + 1) (total_secs - current_pos_secs),
        total_secs, MediaStates.StoppedPlaying) ∧
    (∀ x ∈ (playLoop MediaStates.Playing current_pos_secs total_secs).1,
      x ≤ total_secs) ∧
    (playLoop MediaStates.Playing current_pos_secs total_secs).1.getLast? =
      some total_secs := by
  have hrun := playLoop_run total_secs (total_secs - current_pos_secs)
    current_pos_secs (by omega) (by omega)
  refine ⟨hrun, ?_, ?_⟩
  · intro x hx
    rw [hrun] at hx
    have := (List.mem_range'_1.mp hx).2
    omega
  · rw [hrun]
    have hsplit : total_secs - current_pos_secs =
        (total_secs - current_pos_secs - 1) + 1 := by omega
    rw [hsplit, List.range'_concat]
    simp only [List.getLast?_concat]
    congr 1
    omega

/-- Claim C3, witness: a playback run over a 3-second clip from position 0
emits the ticks 1, 2, 3 and stops automatically. -/
theorem C3_playback_progress_witness :
    0 < 3 ∧
    (playLoop MediaStates.Playing 0 3 =
        (List.range' 1 3, 3, MediaStates.StoppedPlaying) ∧
      (∀ x ∈ (playLoop MediaStates.Playing 0 3).1, x ≤ 3) ∧
      (playLoop MediaStates.Playing 0 3).1.getLast? = some 3) :=
  ⟨by decide, C3_playback_progress 0 3 (by decide)⟩

/-- Characterization of the recording loop from a starting position: it
emits ticks whose current and total components both run through
`current+1 .. current+n`. -/
theorem recordLoop_run (n : Nat) :
    ∀ current_pos_secs, recordLoop current_pos_secs n =
      (List.range' (current_pos_secs + 1) n).map
        (fun k => RecEvent.tick k k) := by
  induction n with
  | zero => intro c; simp [recordLoop]
  | succ m ih =>
    intro c
    rw [recordLoop, List.range'_succ, List.map_cons, ih (c + 1)]

/-- Claim C7: a recording session stopped after `n` observed one-second
ticks produces exactly the events `tick 1 1, ..., tick n n` followed by one
terminal completion event naming the recorded file's path: after tick `k`
both the displayed current position and the displayed total equal `k`, the
total after the last tick is `n`, exactly one completion notification is
emitted, and it comes after every tick. -/
theorem C7_recording_session_trace (n : Nat) (filepath : String) :
    recordSession n filepath =
      (List.range' 1 n).map (fun k => RecEvent.tick k k) ++
        [RecEvent.complete filepath] ∧
    (recordSession n filepath).countP RecEvent.isComplete = 1 ∧
    (recordSession n filepath).getLast? =
      some (RecEvent.complete filepath) ∧
    (∀ k, 1 ≤ k → k ≤ n → RecEvent.tick k k ∈ recordSession n filepath) := by
  have htrace : recordSession n filepath =
      (List.range' 1 n).map (fun k => RecEvent.tick k k) ++
        [RecEvent.complete filepath] := by
    unfold recordSession
    rw [recordLoop_run n 0]
  refine ⟨htrace, ?_, ?_, ?_⟩
  · rw [htrace, List.countP_append]
    have hzero : ((List.range' 1 n).map
        (fun k => RecEvent.tick k k)).countP RecEvent.isComplete = 0 := by
      rw [List.countP_eq_zero]
      intro e he
      obtain ⟨k, _, hk⟩ := List.mem_map.mp he
      rw [← hk]
      simp [RecEvent.isComplete]
    rw [hzero]
    rfl
  · rw [htrace]
    exact List.getLast?_concat _
  · intro k hk1 hkn
    rw [htrace]
    refine List.mem_append.mpr (Or.inl ?_)
    exact List.mem_map.mpr ⟨k, List.mem_range'_1.mpr ⟨hk1, by omega⟩, rfl⟩

/- ### Theorems for claim C6 -/

/-- Membership in the per-config candidate list. -/
theorem mem_ratesOf (config : ConfigRange) (r : Nat) :
    r ∈ ratesOf config ↔
      r ∈ SUPPORTED_SAMPLE_RATES ∧ config.min_sample_rate ≤ r ∧
        r ≤ config.max_sample_rate := by
  simp [ratesOf, List.mem_filter, and_assoc]

/-- Membership after the push loop over all configs, for any accumulator. -/
theorem mem_found_fold (supported_configs : List ConfigRange) :
    ∀ (acc : List Nat) (r : Nat),
      r ∈ supported_configs.foldl (fun acc config => acc ++ ratesOf config) acc ↔
        r ∈ acc ∨ ∃ config ∈ supported_configs, r ∈ ratesOf config := by
  induction supported_configs with
  | nil => intro acc r; simp
  | cons c cfgs ih =>
    intro acc r
    rw [List.foldl_cons, ih (acc ++ ratesOf c) r]
    simp only [List.mem_append, List.mem_cons]
    constructor
    · rintro ((h | h) | ⟨d, hd, hrd⟩)
      · exact Or.inl h
      · exact Or.inr ⟨c, Or.inl rfl, h⟩
      · exact Or.inr ⟨d, Or.inr hd, hrd⟩
    · rintro (h | ⟨d, (hd | hd), hrd⟩)
      · exact Or.inl (Or.inl h)
      · subst hd; exact Or.inl (Or.inr hrd)
      · exact Or.inr ⟨d, hd, hrd⟩

/-- `Vec::dedup` preserves membership. -/
theorem dedup_consecutive_mem :
    ∀ (l : List Nat) (x : Nat), x ∈ dedup_consecutive l ↔ x ∈ l := by
  intro l
  induction l with
  | nil => intro x; simp [dedup_consecutive]
  | cons a rest ih =>
    cases rest with
    | nil => intro x; simp [dedup_consecutive]
    | cons b rest2 =>
      intro x
      by_cases hab : a = b
      · rw [show dedup_consecutive (a :: b :: rest2) =
            dedup_consecutive (b :: rest2) by
          simp only [dedup_consecutive, if_pos hab]]
        rw [ih x]
        subst hab
        simp [List.mem_cons]
      · rw [show dedup_consecutive (a :: b :: rest2) =
            a :: dedup_consecutive (b :: rest2) by
          simp only [dedup_consecutive, if_neg hab]]
        simp only [List.mem_cons, ih x]

/-- `Vec::dedup` of a weakly sorted list is strictly sorted. -/
theorem dedup_consecutive_sorted :
    ∀ l : List Nat, List.Sorted (· ≤ ·) l →
      List.Sorted (· < ·) (dedup_consecutive l) := by
  intro l
  induction l with
  | nil => intro _; simp [dedup_consecutive]
  | cons a rest ih =>
    cases rest with
    | nil => intro _; simp [dedup_consecutive]
    | cons b rest2 =>
      intro hs
      rw [List.sorted_cons] at hs
      obtain ⟨hall, hs2⟩ := hs
      by_cases hab : a = b
      · rw [show dedup_consecutive (a :: b :: rest2) =
            dedup_consecutive (b :: rest2) by
          simp only [dedup_consecutive, if_pos hab]]
        exact ih hs2
      · rw [show dedup_consecutive (a :: b :: rest2) =
            a :: dedup_consecutive (b :: rest2) by
          simp only [dedup_consecutive, if_neg hab]]
        rw [List.sorted_cons]
        refine ⟨?_, ih hs2⟩
        intro x hx
        rw [dedup_consecutive_mem] at hx
        have hax : a ≤ x := hall x hx
        rcases List.mem_cons.mp hx with hxb | hxr
        · omega
        · have hbx : b ≤ x := (List.sorted_cons.mp hs2).1 x hxr
          have hab2 : a ≤ b := hall b (List.mem_cons_self b rest2)
          omega

/-- `sort_unstable` yields a weakly sorted list (modeled by merge sort on
the same total order). -/
theorem mergeSort_le_sorted (l : List Nat) :
    List.Sorted (· ≤ ·) (l.mergeSort (fun a b => decide (a ≤ b))) := by
  have hp := @List.sorted_mergeSort Nat (fun a b => decide (a ≤ b))
    (fun a b c hab hbc => by
      rw [decide_eq_true_eq] at *
      omega)
    (fun a b => by
      rw [Bool.or_eq_true, decide_eq_true_eq, decide_eq_true_eq]
      omega)
    l
  exact hp.imp (fun h => of_decide_eq_true h)

/-- Claim C6: the sample-rate list handed back to the caller is exactly the
fixed candidate set filtered to the rates lying inside at least one
advertised range — the canonical deduplicated ascending list — and it is
strictly sorted, with membership exactly as the claim states. -/
theorem C6_sample_rates_characterization (supported_configs : List ConfigRange) :
    sample_rates supported_configs =
      SUPPORTED_SAMPLE_RATES.filter (fun rate =>
        supported_configs.any (fun config =>
          decide (config.min_sample_rate ≤ rate) &&
            decide (rate ≤ config.max_sample_rate))) ∧
    List.Sorted (· < ·) (sample_rates supported_configs) ∧
    (∀ r, r ∈ sample_rates supported_configs ↔
      (r ∈ SUPPORTED_SAMPLE_RATES ∧ ∃ config ∈ supported_configs,
        config.min_sample_rate ≤ r ∧ r ≤ config.max_sample_rate)) := by
  have hsortL : List.Sorted (· < ·) (sample_rates supported_configs) := by
    unfold sample_rates
    exact dedup_consecutive_sorted _ (mergeSort_le_sorted _)
  have hmemL : ∀ r, r ∈ sample_rates supported_configs ↔
      (r ∈ SUPPORTED_SAMPLE_RATES ∧ ∃ config ∈ supported_configs,
        config.min_sample_rate ≤ r ∧ r ≤ config.max_sample_rate) := by
    intro r
    unfold sample_rates
    rw [dedup_consecutive_mem]
    rw [(List.mergeSort_perm _ _).mem_iff]
    unfold found_sample_rates
    rw [mem_found_fold supported_configs [] r]
    simp only [List.not_mem_nil, false_or]
    constructor
    · rintro ⟨c, hc, hrc⟩
      obtain ⟨h1, h2, h3⟩ := (mem_ratesOf c r).mp hrc
      exact ⟨h1, c, hc, h2, h3⟩
    · rintro ⟨h1, c, hc, h2, h3⟩
      exact ⟨c, hc, (mem_ratesOf c r).mpr ⟨h1, h2, h3⟩⟩
  have hmemR : ∀ r : Nat,
      r ∈ SUPPORTED_SAMPLE_RATES.filter (fun rate =>
        supported_configs.any (fun config =>
          decide (config.min_sample_rate ≤ rate) &&
            decide (rate ≤ config.max_sample_rate))) ↔
      (r ∈ SUPPORTED_SAMPLE_RATES ∧ ∃ config ∈ supported_configs,
        config.min_sample_rate ≤ r ∧ r ≤ config.max_sample_rate) := by
    intro r
    rw [List.mem_filter]
    simp [List.any_eq_true]
  have hsortR : List.Sorted (· < ·)
      (SUPPORTED_SAMPLE_RATES.filter (fun rate =>
        supported_configs.any (fun config =>
          decide (config.min_sample_rate ≤ rate) &&
            decide (rate ≤ config.max_sample_rate)))) :=
    List.Sorted.filter _
      (show List.Sorted (· < ·) SUPPORTED_SAMPLE_RATES by decide)
  have hperm := (List.perm_ext_iff_of_nodup hsortL.nodup hsortR.nodup).mpr
    (fun r => (hmemL r).trans ((hmemR r).symm))
  exact ⟨List.eq_of_perm_of_sorted hperm hsortL hsortR, hsortL, hmemL⟩
